import Mathlib

/-!
Verification development for `synesis2neo4j.py` (synesis-lang/synesis2neo4j).

The Python source is shallowly embedded: pure functions become Lean
functions, JSON values become the inductive `PyVal`, and the effectful
synchronization / metrics code is modelled by the query strings and
reporter events it produces, with the database's responses supplied by an
explicit oracle record.  Machine integers do not occur in the source
(Python integers are unbounded), so `Nat`/`Int` are used directly.
-/

/-! ### Character classes (Python `str` predicates)

Python's `str.isalnum` / `str.isdigit` are Unicode-aware.  The model below
is exact on every code point up to U+00FF (ASCII plus the Latin-1
supplement, whose alphabetic code points are U+00AA, U+00B5, U+00BA and
U+00C0..U+00FF without the two operators U+00D7 and U+00F7, and whose
numeric code points are the superscripts and vulgar fractions).  Code
points above U+00FF are conservatively classified as non-alphanumeric;
every concrete string evaluated below stays within the exact range, and
the universally quantified results (such as idempotence of the sanitizer)
do not depend on the classification of any individual code point.
-/

/-- ASCII letter `A`-`Z` or `a`-`z`. -/
def asciiLetter (c : Char) : Bool :=
  decide ((65 ≤ c.toNat ∧ c.toNat ≤ 90) ∨ (97 ≤ c.toNat ∧ c.toNat ≤ 122))

/-- ASCII digit `0`-`9`. -/
def asciiDigit (c : Char) : Bool :=
  decide (48 ≤ c.toNat ∧ c.toNat ≤ 57)

/-- Alphabetic code points of the Latin-1 supplement. -/
def latin1Alpha (c : Char) : Bool :=
  decide ((192 ≤ c.toNat ∧ c.toNat ≤ 255 ∧ c.toNat ≠ 215 ∧ c.toNat ≠ 247)
    ∨ c.toNat = 170 ∨ c.toNat = 181 ∨ c.toNat = 186)

/-- Numeric (non-digit) code points of the Latin-1 supplement:
superscripts one, two, three and the vulgar fractions. -/
def latin1Numeric (c : Char) : Bool :=
  decide (c.toNat = 178 ∨ c.toNat = 179 ∨ c.toNat = 185
    ∨ c.toNat = 188 ∨ c.toNat = 189 ∨ c.toNat = 190)

/-- Python `c.isalnum()` for a single character (see the note above). -/
def pyIsAlnum (c : Char) : Bool :=
  asciiLetter c || asciiDigit c || latin1Alpha c || latin1Numeric c

/-- Python `c.isdigit()` for a single character: ASCII digits and the
Latin-1 superscript digits. -/
def pyIsDigit (c : Char) : Bool :=
  asciiDigit c || decide (c.toNat = 178 ∨ c.toNat = 179 ∨ c.toNat = 185)

/-- The filter used by `sanitize_cypher_label`:
`c.isalnum() or c == "_"` (underscore is U+005F). -/
def keepChar (c : Char) : Bool :=
  pyIsAlnum c || decide (c.toNat = 95)

/-- Core of `sanitize_cypher_label` on character lists:
`"".join(c for c in label if c.isalnum() or c == "_")`, then a `_` is
prepended when the result starts with a digit. -/
def sanitizeCore (l : List Char) : List Char :=
  match l.filter keepChar with
  | [] => []
  | c :: cs => if pyIsDigit c then '_' :: c :: cs else c :: cs

/-- `sanitize_cypher_label` (src/synesis2neo4j.py lines 171-181): keep
alphanumeric characters and underscores, prepend `_` when the result
starts with a digit, and fall back to the literal `"Unknown"` when the
result is empty. -/
def sanitize_cypher_label (label : String) : String :=
  match sanitizeCore label.data with
  | [] => "Unknown"
  | l => String.mk l

/-- Drops one final newline, mirroring the fact that Python's `$` in
`re.match(r'^[A-Za-z_][A-Za-z0-9_]*$', s)` also matches just before a
single trailing newline. -/
def dropTrailingNewline (l : List Char) : List Char :=
  match l.getLast? with
  | some c => if c.toNat = 10 then l.dropLast else l
  | none => l

/-- `validate_cypher_label` (src/synesis2neo4j.py lines 201-203):
`bool(_CYPHER_LABEL_PATTERN.match(label))` with the pattern
`^[A-Za-z_][A-Za-z0-9_]*$` of line 168. -/
def validate_cypher_label (label : String) : Bool :=
  match dropTrailingNewline label.data with
  | [] => false
  | c :: cs =>
    (asciiLetter c || decide (c.toNat = 95))
      && cs.all (fun d => asciiLetter d || asciiDigit d || decide (d.toNat = 95))

/-- ASCII uppercasing of one character, as Python's `str.upper` acts on
ASCII; non-ASCII case mappings are left unchanged (exact on ASCII, which
is all the development relies on). -/
def pyCharUpper (c : Char) : Char :=
  if 97 ≤ c.toNat ∧ c.toNat ≤ 122 then Char.ofNat (c.toNat - 32) else c

/-- ASCII lowercasing of one character (see `pyCharUpper`). -/
def pyCharLower (c : Char) : Char :=
  if 65 ≤ c.toNat ∧ c.toNat ≤ 90 then Char.ofNat (c.toNat + 32) else c

/-- Python `str.upper`, ASCII-exact. -/
def pyUpper (s : String) : String :=
  String.mk (s.data.map pyCharUpper)

/-- Python `str.lower`, ASCII-exact. -/
def pyLower (s : String) : String :=
  String.mk (s.data.map pyCharLower)

/-- Python `str.capitalize`: first character titlecased, the rest
lowercased (titlecase and uppercase agree on ASCII). -/
def pyCapitalize (s : String) : String :=
  match s.data with
  | [] => ""
  | c :: cs => String.mk (pyCharUpper c :: cs.map pyCharLower)

/-- Every character of the string is ASCII (Python `str.isascii`). -/
def isAsciiString (s : String) : Bool :=
  s.data.all (fun c => decide (c.toNat < 128))

/-! ### Basic facts about the sanitizer -/

theorem keepChar_of_mem_sanitizeCore {l : List Char} {c : Char}
    (h : c ∈ sanitizeCore l) : keepChar c = true := by
  unfold sanitizeCore at h
  cases hf : l.filter keepChar with
  | nil => rw [hf] at h; simp at h
  | cons c₀ cs =>
    rw [hf] at h
    have h' : c ∈ (if pyIsDigit c₀ = true then '_' :: c₀ :: cs else c₀ :: cs) := h
    have hmem : ∀ d ∈ c₀ :: cs, keepChar d = true := by
      intro d hd
      exact List.of_mem_filter (l := l) (hf ▸ hd)
    by_cases hd : pyIsDigit c₀ = true
    · rw [if_pos hd] at h'
      rcases List.mem_cons.mp h' with h1 | h1
      · subst h1; decide
      · exact hmem _ h1
    · rw [if_neg hd] at h'
      exact hmem _ h'

theorem sanitizeCore_head_not_digit {l : List Char} {c : Char} {cs : List Char}
    (h : sanitizeCore l = c :: cs) : pyIsDigit c = false := by
  unfold sanitizeCore at h
  cases hf : l.filter keepChar with
  | nil => rw [hf] at h; simp at h
  | cons c₀ cs₀ =>
    rw [hf] at h
    have h' : (if pyIsDigit c₀ = true then '_' :: c₀ :: cs₀ else c₀ :: cs₀) = c :: cs := h
    by_cases hd : pyIsDigit c₀ = true
    · rw [if_pos hd] at h'
      rw [List.cons_eq_cons] at h'
      rcases h' with ⟨h1, _⟩
      subst h1; decide
    · rw [if_neg hd] at h'
      rw [List.cons_eq_cons] at h'
      rcases h' with ⟨h1, _⟩
      subst h1
      simpa using hd

theorem sanitizeCore_fixed {l : List Char}
    (hkeep : ∀ c ∈ l, keepChar c = true)
    (hhead : ∀ c cs, l = c :: cs → pyIsDigit c = false) :
    sanitizeCore l = l := by
  unfold sanitizeCore
  rw [List.filter_eq_self.mpr hkeep]
  cases l with
  | nil => rfl
  | cons c cs =>
    show (if pyIsDigit c = true then '_' :: c :: cs else c :: cs) = c :: cs
    rw [hhead c cs rfl]
    simp

/-- **C5.** `sanitize_cypher_label` is idempotent: reapplying it to its own
output returns the output unchanged. -/
theorem c5_sanitize_idempotent (s : String) :
    sanitize_cypher_label (sanitize_cypher_label s) = sanitize_cypher_label s := by
  cases h : sanitizeCore s.data with
  | nil =>
    unfold sanitize_cypher_label
    rw [h]
    rfl
  | cons c cs =>
    unfold sanitize_cypher_label
    rw [h]
    have hfix : sanitizeCore (c :: cs) = c :: cs := by
      apply sanitizeCore_fixed
      · intro d hd
        exact keepChar_of_mem_sanitizeCore (h ▸ hd)
      · intro d ds hds
        rw [hds] at h
        exact sanitizeCore_head_not_digit h
    show (match sanitizeCore (String.mk (c :: cs)).data with
      | [] => "Unknown"
      | l => String.mk l) = String.mk (c :: cs)
    have hdata : (String.mk (c :: cs)).data = c :: cs := rfl
    rw [hdata, hfix]

theorem latin1Alpha_eq_false_of_ascii {c : Char} (h : c.toNat < 128) :
    latin1Alpha c = false := by
  simp only [latin1Alpha, decide_eq_false_iff_not]
  omega

theorem latin1Numeric_eq_false_of_ascii {c : Char} (h : c.toNat < 128) :
    latin1Numeric c = false := by
  simp only [latin1Numeric, decide_eq_false_iff_not]
  omega

theorem keepChar_of_ascii {c : Char} (h : c.toNat < 128) :
    keepChar c = (asciiLetter c || asciiDigit c || decide (c.toNat = 95)) := by
  unfold keepChar pyIsAlnum
  rw [latin1Alpha_eq_false_of_ascii h, latin1Numeric_eq_false_of_ascii h]
  simp [Bool.or_assoc]

theorem pyIsDigit_of_ascii {c : Char} (h : c.toNat < 128) :
    pyIsDigit c = asciiDigit c := by
  unfold pyIsDigit
  have : decide (c.toNat = 178 ∨ c.toNat = 179 ∨ c.toNat = 185) = false := by
    simp only [decide_eq_false_iff_not]
    omega
  rw [this]
  simp

theorem keepChar_toNat_ne_ten {c : Char} (h : keepChar c = true) : ¬ c.toNat = 10 := by
  simp only [keepChar, pyIsAlnum, asciiLetter, asciiDigit, latin1Alpha, latin1Numeric,
    Bool.or_eq_true, decide_eq_true_eq] at h
  omega

theorem dropTrailingNewline_eq_self {l : List Char}
    (h : ∀ d ∈ l, ¬ d.toNat = 10) : dropTrailingNewline l = l := by
  unfold dropTrailingNewline
  cases hg : l.getLast? with
  | none => rfl
  | some a =>
    have ha : a ∈ l := by
      rcases List.mem_getLast?_eq_getLast (l := l) (x := a) (by rw [hg]; rfl) with ⟨hne, heq⟩
      rw [heq]
      exact List.getLast_mem hne
    show (if a.toNat = 10 then l.dropLast else l) = l
    rw [if_neg (h a ha)]

theorem mem_sanitizeCore_cases {l : List Char} {d : Char}
    (h : d ∈ sanitizeCore l) : d.toNat = 95 ∨ d ∈ l := by
  unfold sanitizeCore at h
  cases hf : l.filter keepChar with
  | nil => rw [hf] at h; simp at h
  | cons c₀ cs =>
    rw [hf] at h
    have h' : d ∈ (if pyIsDigit c₀ = true then '_' :: c₀ :: cs else c₀ :: cs) := h
    have hsub : d ∈ c₀ :: cs → d ∈ l := fun hd => List.mem_of_mem_filter (hf ▸ hd)
    by_cases hd : pyIsDigit c₀ = true
    · rw [if_pos hd] at h'
      rcases List.mem_cons.mp h' with h1 | h1
      · subst h1; left; rfl
      · exact Or.inr (hsub h1)
    · rw [if_neg hd] at h'
      exact Or.inr (hsub h')

theorem validate_sanitize_of_ascii {s : String} (h : isAsciiString s = true) :
    validate_cypher_label (sanitize_cypher_label s) = true := by
  have hascii : ∀ c ∈ s.data, c.toNat < 128 := by
    simpa [isAsciiString, List.all_eq_true] using h
  cases hc : sanitizeCore s.data with
  | nil =>
    unfold sanitize_cypher_label
    rw [hc]
    decide
  | cons c cs =>
    unfold sanitize_cypher_label
    rw [hc]
    have hmem : ∀ d ∈ c :: cs, keepChar d = true := fun d hd =>
      keepChar_of_mem_sanitizeCore (hc ▸ hd)
    have hmem_ascii : ∀ d ∈ c :: cs, d.toNat < 128 := by
      intro d hd
      rcases mem_sanitizeCore_cases (hc ▸ hd) with h95 | hl
      · omega
      · exact hascii d hl
    have hnd : pyIsDigit c = false := sanitizeCore_head_not_digit hc
    show validate_cypher_label (String.mk (c :: cs)) = true
    unfold validate_cypher_label
    have hdata : (String.mk (c :: cs)).data = c :: cs := rfl
    rw [hdata, dropTrailingNewline_eq_self (fun d hd => keepChar_toNat_ne_ten (hmem d hd))]
    show ((asciiLetter c || decide (c.toNat = 95))
      && cs.all (fun d => asciiLetter d || asciiDigit d || decide (d.toNat = 95))) = true
    have hhead : (asciiLetter c || decide (c.toNat = 95)) = true := by
      have hk := hmem c (List.mem_cons_self c cs)
      rw [keepChar_of_ascii (hmem_ascii c (List.mem_cons_self c cs))] at hk
      have hd : asciiDigit c = false := by
        rw [pyIsDigit_of_ascii (hmem_ascii c (List.mem_cons_self c cs))] at hnd
        exact hnd
      rw [hd] at hk
      simpa using hk
    have htail : cs.all (fun d => asciiLetter d || asciiDigit d || decide (d.toNat = 95)) = true := by
      rw [List.all_eq_true]
      intro d hd
      have hk := hmem d (List.mem_cons_of_mem c hd)
      rw [keepChar_of_ascii (hmem_ascii d (List.mem_cons_of_mem c hd))] at hk
      simpa using hk
    rw [hhead, htail]
    rfl

/-- **C4, counterexample.** On the non-ASCII input `"é"` (alphanumeric for
Python's `str.isalnum`), `sanitize_cypher_label` returns `"é"`, which
neither matches `^[A-Za-z_][A-Za-z0-9_]*$` (the test `validate_cypher_label`
embeds exactly that pattern) nor equals `"Unknown"`. -/
theorem c4_counterexample :
    sanitize_cypher_label "é" = "é" ∧ validate_cypher_label "é" = false
      ∧ ("é" : String) ≠ "Unknown" := by
  refine ⟨by decide, by decide, by decide⟩

/-- **C4, amended.** For every input string consisting of ASCII characters
only, the output of `sanitize_cypher_label` matches
`^[A-Za-z_][A-Za-z0-9_]*$` or equals the literal `"Unknown"`. -/
theorem c4_sanitizer_output_matches (s : String) (h : isAsciiString s = true) :
    validate_cypher_label (sanitize_cypher_label s) = true
      ∨ sanitize_cypher_label s = "Unknown" :=
  Or.inl (validate_sanitize_of_ascii h)

/-- Witness for C4 at the concrete input `"9a b!"`. -/
theorem c4_sanitizer_output_matches_witness :
    isAsciiString "9a b!" = true
      ∧ (validate_cypher_label (sanitize_cypher_label "9a b!") = true
        ∨ sanitize_cypher_label "9a b!" = "Unknown") :=
  ⟨by decide, c4_sanitizer_output_matches "9a b!" (by decide)⟩

/-! ### Python/JSON values

Values of the compiled JSON snapshot: `null`, integers, strings, lists and
objects.  JSON booleans and floats do not occur in the fields this
development reasons about and are omitted.  Objects keep their key order,
as Python dicts do; keys of parsed JSON objects are unique.
-/

inductive PyVal where
  | none : PyVal
  | int : Int → PyVal
  | str : String → PyVal
  | list : List PyVal → PyVal
  | dict : List (String × PyVal) → PyVal

/-- Python truthiness of a value (`bool(v)`). -/
def pyTruthy : PyVal → Bool
  | .none => false
  | .int n => n != 0
  | .str s => !s.isEmpty
  | .list l => !l.isEmpty
  | .dict d => !d.isEmpty

/-- Python `d.get(k)` with default `None`; an explicit JSON `null` and an
absent key both yield `None`, exactly as in the source. -/
def pyGetD (d : List (String × PyVal)) (k : String) : PyVal :=
  (d.lookup k).getD .none

/-- Python dict assignment `d[k] = v`: overwrite in place when the key is
present (dicts keep the original position), append otherwise. -/
def setKey {β : Type} (d : List (String × β)) (k : String) (v : β) : List (String × β) :=
  if (d.lookup k).isSome then
    d.map (fun p => if p.1 = k then (k, v) else p)
  else d ++ [(k, v)]

theorem lookup_append_left {β : Type} {d : List (String × β)} {k : String} {b : β}
    (h : d.lookup k = some b) (d' : List (String × β)) :
    (d ++ d').lookup k = some b := by
  induction d with
  | nil => simp [List.lookup] at h
  | cons p rest ih =>
    obtain ⟨a, v⟩ := p
    simp only [List.cons_append, List.lookup] at h ⊢
    cases hb : k == a with
    | true => rw [hb] at h; simpa using h
    | false => rw [hb] at h; exact ih h

theorem lookup_append_right {β : Type} {d : List (String × β)} {k : String}
    (h : d.lookup k = Option.none) (d' : List (String × β)) :
    (d ++ d').lookup k = d'.lookup k := by
  induction d with
  | nil => simp
  | cons p rest ih =>
    obtain ⟨a, v⟩ := p
    simp only [List.cons_append, List.lookup] at h ⊢
    cases hb : k == a with
    | true => rw [hb] at h; simp at h
    | false => rw [hb] at h; exact ih h

theorem lookup_setKey_self {β : Type} (d : List (String × β)) (k : String) (v : β) :
    (setKey d k v).lookup k = some v := by
  unfold setKey
  by_cases hs : (d.lookup k).isSome
  · rw [if_pos hs]
    induction d with
    | nil => simp [List.lookup] at hs
    | cons p rest ih =>
      obtain ⟨a, b⟩ := p
      by_cases ha : a = k
      · subst ha
        have hmap : ((a, b) :: rest).map (fun p => if p.1 = a then (a, v) else p)
            = (a, v) :: rest.map (fun p => if p.1 = a then (a, v) else p) := by
          simp
        rw [hmap]
        simp [List.lookup]
      · have hba : (k == a) = false := by
          simp [beq_eq_false_iff_ne]
          exact fun hk => ha hk.symm
        simp only [List.lookup, hba] at hs
        simp only [List.map_cons]
        rw [if_neg (by simpa using ha)]
        simp only [List.lookup, hba]
        exact ih hs
  · rw [if_neg hs]
    have hnone : d.lookup k = Option.none := by
      cases h : d.lookup k with
      | none => rfl
      | some b => rw [h] at hs; simp at hs
    rw [lookup_append_right hnone]
    simp [List.lookup]

theorem lookup_setKey_ne {β : Type} (d : List (String × β)) (k k' : String) (v : β)
    (h : k' ≠ k) : (setKey d k v).lookup k' = d.lookup k' := by
  unfold setKey
  by_cases hs : (d.lookup k).isSome
  · rw [if_pos hs]
    clear hs
    induction d with
    | nil => simp
    | cons p rest ih =>
      obtain ⟨a, b⟩ := p
      simp only [List.map_cons]
      by_cases ha : a = k
      · subst ha
        rw [if_pos rfl]
        have hba : (k' == a) = false := by simpa [beq_eq_false_iff_ne] using h
        simp only [List.lookup, hba]
        exact ih
      · rw [if_neg (by simpa using ha)]
        simp only [List.lookup]
        cases hb : k' == a with
        | true => rfl
        | false => exact ih
  · rw [if_neg hs]
    have hnone : d.lookup k = Option.none := by
      cases hd : d.lookup k with
      | none => rfl
      | some b => rw [hd] at hs; simp at hs
    cases hd : d.lookup k' with
    | some b => exact lookup_append_left hd _
    | none =>
      rw [lookup_append_right hd]
      have hba : (k' == k) = false := by simpa [beq_eq_false_iff_ne] using h
      simp [List.lookup, hba]

/-! ### Python `str()` of values

`str(v)` as `_index_to_label` applies it.  For strings the value itself;
for other values Python's `repr`-style rendering (exact for quote-free,
escape-free strings, which is all the development evaluates).
-/

mutual

def pyReprv : PyVal → String
  | .none => "None"
  | .int n => toString n
  | .str s => "\x27" ++ s ++ "\x27"
  | .list l => "[" ++ pyReprElems l ++ "]"
  | .dict d => "\x7b" ++ pyReprEntries d ++ "\x7d"

def pyReprElems : List PyVal → String
  | [] => ""
  | [v] => pyReprv v
  | v :: rest => pyReprv v ++ ", " ++ pyReprElems rest

def pyReprEntries : List (String × PyVal) → String
  | [] => ""
  | [(k, v)] => "\x27" ++ k ++ "\x27: " ++ pyReprv v
  | (k, v) :: rest => "\x27" ++ k ++ "\x27: " ++ pyReprv v ++ ", " ++ pyReprEntries rest

end

/-- Python `str(v)`. -/
def pyStrv : PyVal → String
  | .str s => s
  | v => pyReprv v

/-- Python format `f"{idx:04d}"` for a non-negative index: left-pad the
decimal form with zeros to width four. -/
def pad4 (n : Nat) : String :=
  let s := toString n
  if s.length < 4 then String.mk (List.replicate (4 - s.length) '0') ++ s else s

/-- Python `s.lstrip("@")`: drop every leading `@` (U+0040). -/
def stripAts (s : String) : String :=
  String.mk (s.data.dropWhile (fun c => c.toNat = 64))

/-- Python `s.strip()`; ASCII-whitespace-exact. -/
def pyStrip (s : String) : String :=
  s.trim

/-- `rel.upper().replace(" ", "_").replace("-", "_")` from the chain
branch of `_extract_corpus_data`. -/
def normalizeRelType (rel : String) : String :=
  String.mk (rel.data.map (fun c =>
    let u := pyCharUpper c
    if u.toNat = 32 then '_' else if u.toNat = 45 then '_' else u))

/-- The list held by a value.  In the source these positions hold JSON
arrays; iterating a non-list value would raise `TypeError` in Python (a
string would iterate per character), aborting the run — the total model
collapses those shapes to the empty list, a case no theorem relies on. -/
def asList : PyVal → List PyVal
  | .list l => l
  | _ => []

/-- The string held by a value.  In the source these positions hold JSON
strings; calling `.strip()` on anything else raises `AttributeError` in
Python — the total model collapses those shapes to `""`. -/
def asStrD : PyVal → String
  | .str s => s
  | _ => ""

/-- `v.get(k, default)` on a value expected to be an object
(`chain.get("nodes", [])`); a non-dict would raise in Python. -/
def pyValGetD : PyVal → String → PyVal
  | .dict d, k => pyGetD d k
  | _, _ => .none

/-- `_index_to_label` (src/synesis2neo4j.py lines 480-487): an integer is
looked up in the value map by exact `index`; on a hit the entry's `label`
(default `str(value)`), on a miss or for a non-integer `str(value)`. -/
def _index_to_label (value : PyVal) (value_map : List (List (String × PyVal))) : PyVal :=
  match value with
  | .int v =>
    match value_map.find? (fun entry =>
      match entry.lookup "index" with
      | some (.int i) => i == v
      | _ => false) with
    | some entry => (entry.lookup "label").getD (.str (toString v))
    | Option.none => .str (toString v)
  | v => .str (pyStrv v)

/-! ### Ontology and concepts -/

/-- One ontology entry: `entry.get("description")` (default `None`) and
`entry.get("fields", {})`. -/
structure OntEntry where
  description : PyVal
  fields : List (String × PyVal)

/-- One extracted concept: `{"props": ..., "relations": ...}`. -/
structure ConceptRow where
  props : List (String × PyVal)
  relations : List (String × List PyVal)

/-- The per-taxonomy-field resolution inside `_extract_concepts`
(src/synesis2neo4j.py lines 513-523): with a value map each element goes
through `_index_to_label` (a scalar is wrapped); without one the raw value
is used directly (a scalar is wrapped). -/
def resolveRelationRaw (value_maps : List (String × List (List (String × PyVal))))
    (gf : String) (raw : PyVal) : List PyVal :=
  match value_maps.lookup gf with
  | some vm =>
    match raw with
    | .list l => l.map (fun v => _index_to_label v vm)
    | v => [_index_to_label v vm]
  | Option.none =>
    match raw with
    | .list l => l
    | v => [v]

/-- The loop body of `_extract_concepts` for one ontology entry.
`int(time.time())` is modelled by the ambient timestamp `created`. -/
def conceptOfEntry (scalar_fields graph_fields : List String)
    (value_maps : List (String × List (List (String × PyVal)))) (created : Int)
    (p : String × OntEntry) : ConceptRow :=
  let props0 : List (String × PyVal) :=
    [("name", .str p.1), ("description", p.2.description), ("created", .int created)]
  let props := scalar_fields.foldl (fun ps sf =>
    match p.2.fields.lookup sf with
    | some v => setKey ps sf v
    | Option.none => ps) props0
  let relations := graph_fields.foldl (fun rs gf =>
    match p.2.fields.lookup gf with
    | some raw => setKey rs gf (resolveRelationRaw value_maps gf raw)
    | Option.none => rs) []
  { props := props, relations := relations }

/-- `_extract_concepts` (src/synesis2neo4j.py lines 490-527). -/
def _extract_concepts (ontology : List (String × OntEntry))
    (scalar_fields graph_fields : List String)
    (value_maps : List (String × List (List (String × PyVal)))) (created : Int) :
    List ConceptRow :=
  ontology.map (conceptOfEntry scalar_fields graph_fields value_maps created)

/-! ### Template analysis -/

/-- One template field specification, with the dict defaults of
`analyze_template` already applied at the JSON boundary: `scope` is
`spec.get("scope", "")`, `ftype` is `spec.get("type", "TEXT")`, `values`
is `spec.get("values")` with `None`/absent collapsed to `[]` (both are
falsy), `relations` is `spec.get("relations", {})` and `description` is
`spec.get("description", "")`. -/
structure FieldSpec where
  scope : String
  ftype : String
  values : List (List (String × PyVal)) := []
  relations : List (String × String) := []
  description : String := ""

/-- `ChainFieldSpec` dataclass. -/
structure ChainFieldSpec where
  field_name : String
  relations : List (String × String)
deriving DecidableEq

/-- `CodeFieldSpec` dataclass. -/
structure CodeFieldSpec where
  field_name : String
  description : String
deriving DecidableEq

/-- The six lists returned by `analyze_template`. -/
structure TemplateAnalysis where
  scalar_fields : List String := []
  graph_fields : List String := []
  chain_fields : List ChainFieldSpec := []
  code_fields : List CodeFieldSpec := []
  value_maps : List (String × List (List (String × PyVal))) := []
  source_fields : List String := []

/-- `analyze_template` (src/synesis2neo4j.py lines 309-360): classify each
field by `scope`/`type`; any other combination is silently ignored. -/
def analyze_template : List (String × FieldSpec) → TemplateAnalysis
  | [] => {}
  | (field_name, spec) :: rest =>
    let t := analyze_template rest
    let scope := pyUpper spec.scope
    if scope = "ONTOLOGY" then
      if spec.ftype = "TOPIC" ∨ spec.ftype = "ENUMERATED" ∨ spec.ftype = "ORDERED" then
        { t with graph_fields := field_name :: t.graph_fields,
                 value_maps :=
                   if !spec.values.isEmpty then (field_name, spec.values) :: t.value_maps
                   else t.value_maps }
      else
        { t with scalar_fields := field_name :: t.scalar_fields }
    else if scope = "ITEM" then
      if spec.ftype = "CHAIN" then
        { t with chain_fields := ⟨field_name, spec.relations⟩ :: t.chain_fields }
      else if spec.ftype = "CODE" then
        { t with code_fields := ⟨field_name, spec.description⟩ :: t.code_fields }
      else t
    else if scope = "SOURCE" then
      { t with source_fields := field_name :: t.source_fields }
    else t

/-- `get_taxonomy_labels` (src/synesis2neo4j.py lines 363-365). -/
def get_taxonomy_labels (graph_fields : List String) : List String :=
  graph_fields.map (fun f => sanitize_cypher_label (pyCapitalize f))

/-! ### Corpus extraction -/

/-- One corpus record: `{"id", "source_ref", "data", "source_metadata"}`;
`item.get("source_metadata", {})` collapses an absent table to `[]`. -/
structure CorpusRecord where
  id : String
  source_ref : String
  data : List (String × PyVal)
  source_metadata : List (String × PyVal) := []

/-- One row of the `items` list. -/
structure ItemRow where
  item_id : String
  citation : PyVal
  description : PyVal

/-- One row of the `mentions` list. -/
structure MentionRow where
  item_id : String
  concept : PyVal
  order : Nat

/-- One row of the `chains` list (`type` is the normalized relation). -/
structure ChainRow where
  source : String
  target : String
  type : String
  description : String
  item_id : String
deriving DecidableEq

/-- One row of the `from_source` list. -/
structure FromSourceRow where
  item_id : String
  ref : String
deriving DecidableEq

/-- The five lists accumulated by `_extract_corpus_data`. -/
structure CorpusRows where
  sources : List (List (String × PyVal)) := []
  items : List ItemRow := []
  mentions : List MentionRow := []
  chains : List ChainRow := []
  from_source : List FromSourceRow := []

/-- Concatenation of row collections, preserving per-list append order. -/
def CorpusRows.coalesce (a b : CorpusRows) : CorpusRows :=
  { sources := a.sources ++ b.sources
    items := a.items ++ b.items
    mentions := a.mentions ++ b.mentions
    chains := a.chains ++ b.chains
    from_source := a.from_source ++ b.from_source }

/-- `_build_source_props` (src/synesis2neo4j.py lines 645-668). -/
def _build_source_props (source_ref : String) (item : CorpusRecord)
    (bibliography : List (String × List (String × PyVal)))
    (source_fields : List String) : List (String × PyVal) :=
  let bib_entry := (bibliography.lookup source_ref).getD []
  let source_meta := item.source_metadata
  let props : List (String × PyVal) := [("bibtex", .str source_ref)]
  let props := ["title", "author", "year", "doi", "journal", "abstract"].foldl
    (fun ps key =>
      let v1 := pyGetD source_meta key
      let val := if pyTruthy v1 then v1 else pyGetD bib_entry key
      match val with
      | .none => ps
      | v => setKey ps key v) props
  source_fields.foldl
    (fun ps f =>
      match source_meta.lookup f with
      | some v =>
        match v with
        | .none => ps
        | _ => setKey ps f v
      | Option.none => ps) props

/-- The body of the chain-mode loop of `_extract_corpus_data`
(src/synesis2neo4j.py lines 578-604) for one `(note, chain)` pair at
1-based index `idx`. -/
def chainPairRow (corpus_id ref : String) (citation : PyVal)
    (relation_definitions : List (String × String)) (idx : Nat)
    (note chainEntry : PyVal) : CorpusRows :=
  let item_id := corpus_id ++ "_n" ++ pad4 idx
  let item : ItemRow := { item_id := item_id, citation := citation, description := note }
  let fs : FromSourceRow := { item_id := item_id, ref := ref }
  let nodes := asList (pyValGetD chainEntry "nodes")
  match nodes with
  | a :: b :: c :: _ =>
    let src := pyStrip (asStrD a)
    let rel := pyStrip (asStrD b)
    let tgt := pyStrip (asStrD c)
    let rel_type := normalizeRelType rel
    let rel_description := (relation_definitions.lookup rel).getD ""
    { items := [item]
      mentions := [{ item_id := item_id, concept := .str src, order := 1 },
                   { item_id := item_id, concept := .str tgt, order := 2 }]
      chains := [{ source := src, target := tgt, type := rel_type,
                   description := rel_description, item_id := item_id }]
      from_source := [fs] }
  | _ => { items := [item], from_source := [fs] }

/-- The chain-mode loop `for idx, (note, chain) in enumerate(zip(notes,
chain_list), 1)` over the already-zipped pairs. -/
def chainPairsLoop (corpus_id ref : String) (citation : PyVal)
    (relation_definitions : List (String × String)) :
    Nat → List (PyVal × PyVal) → CorpusRows
  | _, [] => {}
  | idx, (note, ch) :: rest =>
    (chainPairRow corpus_id ref citation relation_definitions idx note ch).coalesce
      (chainPairsLoop corpus_id ref citation relation_definitions (idx + 1) rest)

/-- Chain mode for one record: zip `note` and `chain` and run the loop. -/
def chainModeRows (corpus_id ref : String) (citation : PyVal)
    (relation_definitions : List (String × String))
    (notes chain_list : List PyVal) : CorpusRows :=
  chainPairsLoop corpus_id ref citation relation_definitions 1 (notes.zip chain_list)

/-- The base-text search of code mode: first of `ordem_1a`, `text`,
`citation` present with truthy data; a list yields its first element. -/
def codeBaseText (data : List (String × PyVal)) : PyVal :=
  match ["ordem_1a", "text", "citation"].find? (fun f => pyTruthy (pyGetD data f)) with
  | some f =>
    match pyGetD data f with
    | .list l => l.headD (.str "")
    | v => v
  | Option.none => .str ""

/-- The code-mode loop `for idx, code in enumerate(code_list, 1)`. -/
def codePairsLoop (corpus_id ref : String) (base_text : PyVal)
    (descriptions : List PyVal) : Nat → List PyVal → CorpusRows
  | _, [] => {}
  | idx, code :: rest =>
    let item_id := corpus_id ++ "_c" ++ pad4 idx
    let description :=
      if idx ≤ descriptions.length then (descriptions.get? (idx - 1)).getD (.str "")
      else .str ""
    (({ items := [{ item_id := item_id, citation := base_text, description := description }]
        mentions := [{ item_id := item_id, concept := code, order := 1 }]
        from_source := [{ item_id := item_id, ref := ref }] } : CorpusRows)).coalesce
      (codePairsLoop corpus_id ref base_text descriptions (idx + 1) rest)

/-- Code mode for one record (src/synesis2neo4j.py lines 606-640): pick
the first declared code field with truthy data (`next(..., None)`; the
follow-up `if not code_field` also rejects a field named `""`), coerce the
value to a list, resolve descriptions (`justificativa_interna` or
`descricao`, broadcast when scalar) and the base text, then loop. -/
def codeModeRows (corpus_id ref : String) (data : List (String × PyVal))
    (code_field_names : List String) : CorpusRows :=
  match code_field_names.find? (fun cf => pyTruthy (pyGetD data cf)) with
  | Option.none => {}
  | some code_field =>
    if code_field = "" then {}
    else
      let code_list :=
        match pyGetD data code_field with
        | .list l => l
        | v => [v]
      let descVal :=
        let a := (data.lookup "justificativa_interna").getD (.list [])
        if pyTruthy a then a else (data.lookup "descricao").getD (.list [])
      let descriptions :=
        match descVal with
        | .list l => l
        | v => List.replicate code_list.length v
      codePairsLoop corpus_id ref (codeBaseText data) descriptions 1 code_list

/-- The per-record body of `_extract_corpus_data` after the source
handling: detect the template pattern (`has_chain` first) and run the
matching mode. -/
def extractRecordRows (rec : CorpusRecord)
    (relation_definitions : List (String × String))
    (code_field_names : List String) : CorpusRows :=
  let source_ref := stripAts rec.source_ref
  let data := rec.data
  if pyTruthy (pyGetD data "chain") then
    chainModeRows rec.id source_ref ((data.lookup "text").getD (.str ""))
      relation_definitions
      (asList ((data.lookup "note").getD (.list [])))
      (asList ((data.lookup "chain").getD (.list [])))
  else if code_field_names.any (fun cf => pyTruthy (pyGetD data cf)) then
    codeModeRows rec.id source_ref data code_field_names
  else {}

/-- The fold of `_extract_corpus_data` over the corpus, carrying the
`seen_refs` set (as the list of stripped references in insertion order;
membership is what the source's `set` provides). -/
def extractCorpusFold (bibliography : List (String × List (String × PyVal)))
    (relation_definitions : List (String × String))
    (code_field_names : List String) (source_fields : List String) :
    List CorpusRecord → List String → CorpusRows
  | [], _ => {}
  | rec :: rest, seen =>
    if stripAts rec.source_ref ∉ seen then
      (CorpusRows.coalesce
          { sources := [_build_source_props (stripAts rec.source_ref) rec bibliography
              source_fields] }
          (extractRecordRows rec relation_definitions code_field_names)).coalesce
        (extractCorpusFold bibliography relation_definitions code_field_names source_fields
          rest (seen ++ [stripAts rec.source_ref]))
    else
      (CorpusRows.coalesce {}
          (extractRecordRows rec relation_definitions code_field_names)).coalesce
        (extractCorpusFold bibliography relation_definitions code_field_names source_fields
          rest seen)

/-- `_extract_corpus_data` (src/synesis2neo4j.py lines 530-642). -/
def _extract_corpus_data (corpus : List CorpusRecord)
    (bibliography : List (String × List (String × PyVal)))
    (relation_definitions : List (String × String))
    (code_field_names : List String) (source_fields : List String) : CorpusRows :=
  extractCorpusFold bibliography relation_definitions code_field_names source_fields
    corpus []

/-! ### Payload construction -/

/-- `GraphPayload` dataclass (src/synesis2neo4j.py lines 138-154). -/
structure GraphPayload where
  project_name : String
  concept_label : String
  scalar_fields : List String
  graph_fields : List String
  chain_fields : List ChainFieldSpec
  code_fields : List CodeFieldSpec
  source_fields : List String
  value_maps : List (String × List (List (String × PyVal)))
  concepts : List ConceptRow
  sources : List (List (String × PyVal))
  items : List ItemRow
  chains : List ChainRow
  mentions : List MentionRow
  from_source : List FromSourceRow

/-- The compiled snapshot as `_build_graph_payload` reads it:
`json_data.get("project", {}).get("name", "synesis")`, `ontology`,
`corpus` and `bibliography`. -/
structure Snapshot where
  project_name : String := "synesis"
  ontology : List (String × OntEntry) := []
  corpus : List CorpusRecord := []
  bibliography : List (String × List (String × PyVal)) := []

/-- `_build_graph_payload` (src/synesis2neo4j.py lines 426-477).  The
concept label is the sanitized, capitalized name of the first chain
field, else of the first code field, else the literal `"Concept"`;
`relation_definitions` merges the chain fields' relation tables
(`dict.update` in declaration order). -/
def _build_graph_payload (json_data : Snapshot)
    (scalar_fields graph_fields : List String)
    (chain_fields : List ChainFieldSpec) (code_fields : List CodeFieldSpec)
    (value_maps : List (String × List (List (String × PyVal))))
    (source_fields : List String) (created : Int) : GraphPayload :=
  let concept_label :=
    match chain_fields with
    | cf :: _ => sanitize_cypher_label (pyCapitalize cf.field_name)
    | [] =>
      match code_fields with
      | cf :: _ => sanitize_cypher_label (pyCapitalize cf.field_name)
      | [] => "Concept"
  let relation_definitions := chain_fields.foldl
    (fun m cf => cf.relations.foldl (fun m2 kv => setKey m2 kv.1 kv.2) m) []
  let code_field_names := code_fields.map (fun cf => cf.field_name)
  let concepts := _extract_concepts json_data.ontology scalar_fields graph_fields
    value_maps created
  let rows := _extract_corpus_data json_data.corpus json_data.bibliography
    relation_definitions code_field_names source_fields
  { project_name := json_data.project_name
    concept_label := concept_label
    scalar_fields := scalar_fields
    graph_fields := graph_fields
    chain_fields := chain_fields
    code_fields := code_fields
    source_fields := source_fields
    value_maps := value_maps
    concepts := concepts
    sources := rows.sources
    items := rows.items
    chains := rows.chains
    mentions := rows.mentions
    from_source := rows.from_source }

/-- The payload-producing tail of `compile_project` (src/synesis2neo4j.py
lines 411-423) after a successful compile: analyze the template, then
build the payload. -/
def compile_project_payload (field_specs : List (String × FieldSpec))
    (json_data : Snapshot) (created : Int) : GraphPayload :=
  let t := analyze_template field_specs
  _build_graph_payload json_data t.scalar_fields t.graph_fields t.chain_fields
    t.code_fields t.value_maps t.source_fields created

/-! ### Synchronization queries

The f-string query texts are reproduced with whitespace normalized to
single spaces; `\x7b`/`\x7d` denote the literal braces of the Cypher
property maps.
-/

/-- The query of `_sync_mentions` with `concept_label` spliced in
unvalidated (src/synesis2neo4j.py lines 884-894). -/
def syncMentionsQueryText (concept_label : String) : String :=
  "UNWIND $rows AS row MATCH (i:Item \x7bitem_id: row.item_id\x7d) MATCH (c:"
    ++ concept_label
    ++ " \x7bname: row.concept\x7d) MERGE (i)-[m:MENTIONS]->(c) SET m.order = row.order"

/-- `_sync_mentions`: no query when `mentions` is empty. -/
def _sync_mentions_queries (mentions : List MentionRow) (concept_label : String) :
    List String :=
  if mentions.isEmpty then [] else [syncMentionsQueryText concept_label]

/-- First query of `_sync_concepts`: concept nodes from the ontology. -/
def syncConceptsNodesQueryText (concept_label : String) : String :=
  "UNWIND $rows AS row MERGE (c:" ++ concept_label
    ++ " \x7bname: row.props.name\x7d) SET c += row.props"

/-- Second query of `_sync_concepts`: chain source/target stubs. -/
def syncChainStubsQueryText (concept_label : String) : String :=
  "UNWIND $rows AS row MERGE (s:" ++ concept_label
    ++ " \x7bname: row.source\x7d) MERGE (t:" ++ concept_label
    ++ " \x7bname: row.target\x7d)"

/-- Third query of `_sync_concepts`: `RELATES_TO` edges. -/
def syncRelatesToQueryText (concept_label : String) : String :=
  "UNWIND $rows AS row MATCH (s:" ++ concept_label
    ++ " \x7bname: row.source\x7d) MATCH (t:" ++ concept_label
    ++ " \x7bname: row.target\x7d) MERGE (s)-[r:RELATES_TO]->(t)"
    ++ " SET r.type = row.type, r.description = row.description, r.item_id = row.item_id"

/-- `_sync_concepts` (src/synesis2neo4j.py lines 897-936): the ontology
query when `concepts` is non-empty, then — only when `chains` is
non-empty — the stub and relation queries.  `concept_label` is spliced
into each without validation. -/
def _sync_concepts_queries (chains : List ChainRow) (concepts : List ConceptRow)
    (concept_label : String) : List String :=
  (if concepts.isEmpty then [] else [syncConceptsNodesQueryText concept_label])
    ++ (if chains.isEmpty then []
        else [syncChainStubsQueryText concept_label, syncRelatesToQueryText concept_label])

/-- `_create_constraints` (src/synesis2neo4j.py lines 727-744): dynamic
taxonomy labels and the concept label are validated before splicing;
failures are skipped. -/
def _create_constraints_queries (graph_fields : List String) (concept_label : String) :
    List String :=
  ((get_taxonomy_labels graph_fields).filter (fun l => validate_cypher_label l)).map
    (fun label =>
      "CREATE CONSTRAINT IF NOT EXISTS FOR (n:" ++ label ++ ") REQUIRE n.name IS UNIQUE")
  ++ ["CREATE CONSTRAINT IF NOT EXISTS FOR (s:Source) REQUIRE s.bibtex IS UNIQUE",
      "CREATE CONSTRAINT IF NOT EXISTS FOR (i:Item) REQUIRE i.item_id IS UNIQUE"]
  ++ (if validate_cypher_label concept_label then
        ["CREATE CONSTRAINT IF NOT EXISTS FOR (c:" ++ concept_label
          ++ ") REQUIRE c.name IS UNIQUE"]
      else [])

/-- `TAXONOMY_RELATION_MAP` (src/synesis2neo4j.py lines 793-798). -/
def TAXONOMY_RELATION_MAP : List (String × String) :=
  [("topic", "GROUPED_BY"), ("aspect", "QUALIFIED_BY"),
   ("dimension", "BELONGS_TO"), ("confidence", "RATED_AS")]

/-- `_get_taxonomy_relation` (src/synesis2neo4j.py lines 801-803). -/
def _get_taxonomy_relation (field_name : String) : String :=
  (TAXONOMY_RELATION_MAP.lookup (pyLower field_name)).getD ("HAS_" ++ pyUpper field_name)

/-- The `(label, rel_type)` pairs actually spliced by the per-field loop
of `_sync_taxonomies` (src/synesis2neo4j.py lines 826-843): a pair whose
label or relation type fails validation is skipped by the `continue`. -/
def _sync_taxonomies_spliced (graph_fields : List String) : List (String × String) :=
  graph_fields.filterMap (fun field_name =>
    let label := sanitize_cypher_label (pyCapitalize field_name)
    let rel_type := _get_taxonomy_relation field_name
    if validate_cypher_label label && validate_cypher_label rel_type then
      some (label, rel_type)
    else Option.none)

/-! ### Graph metrics -/

/-- `_get_graph_strategy` (src/synesis2neo4j.py lines 953-967). -/
def _get_graph_strategy (payload : GraphPayload) : String :=
  match payload.chains with
  | _ :: _ => "RELATES_TO"
  | [] =>
    match payload.graph_fields with
    | _ :: _ => "CO_TAXONOMY"
    | [] => "CO_CITATION"

/-- Oracle for the store's responses during `_compute_gds_metrics`: the
node/relationship counts the projection call reports, and for each GDS
algorithm `none` on success or the exception text on failure. -/
structure GdsSession where
  projectionCounts : Nat × Nat
  pagerank : Option String := Option.none
  betweenness : Option String := Option.none
  louvain : Option String := Option.none

/-- One event sent to the injected reporter. -/
inductive ReporterEvent where
  | info (msg : String)
  | success (msg : String)
  | warning (msg : String)
deriving DecidableEq

/-- The relationship types used by the `CO_TAXONOMY` projection of
`_create_gds_projection`: taxonomy relations that pass validation. -/
def taxonomyProjectionRels (graph_fields : List String) : List String :=
  graph_fields.filterMap (fun f =>
    let r := _get_taxonomy_relation f
    if validate_cypher_label r then some r else Option.none)

/-- `_create_gds_projection` (src/synesis2neo4j.py lines 1195-1269): the
reported `(nodeCount, relationshipCount)`.  For `CO_TAXONOMY` with no
valid taxonomy relation the source returns `(0, 0)` without projecting;
otherwise the counts come from the store. -/
def _create_gds_projection (payload : GraphPayload) (strategy : String)
    (s : GdsSession) : Nat × Nat :=
  if strategy = "RELATES_TO" then s.projectionCounts
  else if strategy = "CO_TAXONOMY" then
    if (taxonomyProjectionRels payload.graph_fields).isEmpty then (0, 0)
    else s.projectionCounts
  else s.projectionCounts

/-- `_compute_gds_metrics` (src/synesis2neo4j.py lines 1131-1183),
modelled as the reporter events it emits and the list of GDS algorithms
it attempts; the surrounding `gds.graph.drop` calls touch only the
ephemeral projection and emit no event. -/
def _compute_gds_metrics (payload : GraphPayload) (strategy : String)
    (s : GdsSession) : List ReporterEvent × List String :=
  let counts := _create_gds_projection payload strategy s
  if counts.1 = 0 ∨ counts.2 = 0 then
    ([.warning "Empty graph - skipping GDS metrics"], [])
  else
    let e1 : ReporterEvent := .info ("GDS projection: " ++ toString counts.1
      ++ " nodes, " ++ toString counts.2 ++ " relationships")
    let ePage : ReporterEvent :=
      match s.pagerank with
      | Option.none => .success "PageRank calculated"
      | some e => .warning ("PageRank failed: " ++ e)
    let eBet : ReporterEvent :=
      match s.betweenness with
      | Option.none => .success "Betweenness calculated"
      | some e => .warning ("Betweenness failed: " ++ e)
    let eLou : ReporterEvent :=
      match s.louvain with
      | Option.none => .success "Communities (Louvain) calculated"
      | some e => .warning ("Louvain failed: " ++ e)
    ([e1, ePage, eBet, eLou], ["pagerank", "betweenness", "louvain"])

/-! ### C7: metrics strategy selection -/

/-- A concrete chain row shared by the concrete examples below. -/
def sampleChainRow : ChainRow :=
  { source := "A", target := "B", type := "REL", description := "", item_id := "i1" }

/-- A payload with every collection empty. -/
def emptyPayload : GraphPayload :=
  { project_name := "p", concept_label := "Concept", scalar_fields := [],
    graph_fields := [], chain_fields := [], code_fields := [], source_fields := [],
    value_maps := [], concepts := [], sources := [], items := [], chains := [],
    mentions := [], from_source := [] }

/-- **C7.** Metrics strategy selection is a deterministic function of the
payload: non-empty `chains` selects `RELATES_TO`; empty `chains` with
non-empty `graph_fields` selects `CO_TAXONOMY`; both empty selects
`CO_CITATION`. -/
theorem c7_strategy_deterministic (p : GraphPayload) :
    (p.chains ≠ [] → _get_graph_strategy p = "RELATES_TO")
    ∧ (p.chains = [] → p.graph_fields ≠ [] → _get_graph_strategy p = "CO_TAXONOMY")
    ∧ (p.chains = [] → p.graph_fields = [] → _get_graph_strategy p = "CO_CITATION") := by
  refine ⟨fun h => ?_, fun h1 h2 => ?_, fun h1 h2 => ?_⟩
  · unfold _get_graph_strategy
    cases hc : p.chains with
    | nil => exact absurd hc h
    | cons a l => rfl
  · unfold _get_graph_strategy
    rw [h1]
    show (match p.graph_fields with
      | _ :: _ => "CO_TAXONOMY"
      | [] => "CO_CITATION") = "CO_TAXONOMY"
    cases hg : p.graph_fields with
    | nil => exact absurd hg h2
    | cons a l => rfl
  · unfold _get_graph_strategy
    rw [h1]
    show (match p.graph_fields with
      | _ :: _ => "CO_TAXONOMY"
      | [] => "CO_CITATION") = "CO_CITATION"
    rw [h2]

/-- Witness for C7 on three concrete payloads, one per branch. -/
theorem c7_strategy_deterministic_witness :
    _get_graph_strategy { emptyPayload with chains := [sampleChainRow] } = "RELATES_TO"
    ∧ _get_graph_strategy { emptyPayload with graph_fields := ["topic"] } = "CO_TAXONOMY"
    ∧ _get_graph_strategy emptyPayload = "CO_CITATION" :=
  ⟨(c7_strategy_deterministic _).1 (List.cons_ne_nil _ _),
   (c7_strategy_deterministic _).2.1 rfl (List.cons_ne_nil _ _),
   (c7_strategy_deterministic _).2.2 rfl rfl⟩

/-! ### C8: empty projection skips the GDS algorithms -/

/-- **C8.** Whenever the created projection reports zero nodes or zero
relationships, `_compute_gds_metrics` emits exactly one warning event and
attempts none of the three GDS algorithms. -/
theorem c8_zero_projection_skips (payload : GraphPayload) (strategy : String)
    (s : GdsSession)
    (h : (_create_gds_projection payload strategy s).1 = 0
      ∨ (_create_gds_projection payload strategy s).2 = 0) :
    _compute_gds_metrics payload strategy s
      = ([ReporterEvent.warning "Empty graph - skipping GDS metrics"], []) := by
  unfold _compute_gds_metrics
  rw [if_pos h]

/-- Oracle reporting a projection with zero nodes (and five edges). -/
def gdsOracleZeroNodes : GdsSession := { projectionCounts := (0, 5) }

/-- Witness for C8 at a concrete payload and oracle. -/
theorem c8_zero_projection_skips_witness :
    ((_create_gds_projection emptyPayload "RELATES_TO" gdsOracleZeroNodes).1 = 0
      ∨ (_create_gds_projection emptyPayload "RELATES_TO" gdsOracleZeroNodes).2 = 0)
    ∧ _compute_gds_metrics emptyPayload "RELATES_TO" gdsOracleZeroNodes
        = ([ReporterEvent.warning "Empty graph - skipping GDS metrics"], []) :=
  ⟨Or.inl (by decide),
   c8_zero_projection_skips emptyPayload "RELATES_TO" gdsOracleZeroNodes (Or.inl (by decide))⟩

/-! ### C10: chain entries with fewer than three nodes -/

/-- **C10.** In chain mode, a `(note, chain)` pair whose chain entry
exposes fewer than three node strings still yields its Item (with id
`{record_id}_n{i:04d}`) and `FROM_SOURCE` row, but no Mention and no
Chain edge. -/
theorem c10_short_chain_item_only (corpus_id ref : String) (citation : PyVal)
    (relation_definitions : List (String × String)) (idx : Nat)
    (note chainEntry : PyVal)
    (h : (asList (pyValGetD chainEntry "nodes")).length < 3) :
    chainPairRow corpus_id ref citation relation_definitions idx note chainEntry
      = { items := [{ item_id := corpus_id ++ "_n" ++ pad4 idx, citation := citation,
                      description := note }]
          from_source := [{ item_id := corpus_id ++ "_n" ++ pad4 idx, ref := ref }] } := by
  unfold chainPairRow
  cases hn : asList (pyValGetD chainEntry "nodes") with
  | nil => rfl
  | cons a t =>
    cases t with
    | nil => rfl
    | cons b t2 =>
      cases t2 with
      | nil => rfl
      | cons c t3 =>
        rw [hn] at h
        simp at h
        omega

/-- A chain entry with only two node strings. -/
def shortChainEntry : PyVal := .dict [("nodes", .list [.str "A", .str "B"])]

/-- Witness for C10 at a concrete short chain entry. -/
theorem c10_short_chain_item_only_witness :
    (asList (pyValGetD shortChainEntry "nodes")).length < 3
    ∧ chainPairRow "r1" "S" (.str "cite") [] 1 (.str "note1") shortChainEntry
      = { items := [{ item_id := "r1" ++ "_n" ++ pad4 1, citation := .str "cite",
                      description := .str "note1" }]
          from_source := [{ item_id := "r1" ++ "_n" ++ pad4 1, ref := "S" }] } :=
  ⟨by decide,
   c10_short_chain_item_only "r1" "S" (.str "cite") [] 1 (.str "note1") shortChainEntry
     (by decide)⟩

/-! ### C9: chain mode is governed by `zip` -/

theorem chainPairRow_items_one (corpus_id ref : String) (citation : PyVal)
    (relation_definitions : List (String × String)) (idx : Nat)
    (note chainEntry : PyVal) :
    (chainPairRow corpus_id ref citation relation_definitions idx note chainEntry).items.length = 1
    ∧ (chainPairRow corpus_id ref citation relation_definitions idx note chainEntry).from_source.length = 1 := by
  refine ⟨?_, ?_⟩ <;>
    (unfold chainPairRow
     cases asList (pyValGetD chainEntry "nodes") with
     | nil => rfl
     | cons a t =>
       cases t with
       | nil => rfl
       | cons b t2 =>
         cases t2 with
         | nil => rfl
         | cons c t3 => rfl)

theorem chainPairsLoop_lengths (corpus_id ref : String) (citation : PyVal)
    (relation_definitions : List (String × String)) :
    ∀ (pairs : List (PyVal × PyVal)) (idx : Nat),
      (chainPairsLoop corpus_id ref citation relation_definitions idx pairs).items.length
          = pairs.length
      ∧ (chainPairsLoop corpus_id ref citation relation_definitions idx pairs).from_source.length
          = pairs.length := by
  intro pairs
  induction pairs with
  | nil => intro idx; exact ⟨rfl, rfl⟩
  | cons p rest ih =>
    intro idx
    obtain ⟨note, ch⟩ := p
    have hrow := chainPairRow_items_one corpus_id ref citation relation_definitions idx note ch
    have htail := ih (idx + 1)
    unfold chainPairsLoop CorpusRows.coalesce
    constructor
    · simp only [List.length_append, List.length_cons]
      rw [hrow.1, htail.1]
      omega
    · simp only [List.length_append, List.length_cons]
      rw [hrow.2, htail.2]
      omega

theorem zip_eq_zip_take {α β : Type} (l : List α) (m : List β) :
    l.zip m = (l.take (min l.length m.length)).zip (m.take (min l.length m.length)) := by
  induction l generalizing m with
  | nil => simp
  | cons a l ih =>
    cases m with
    | nil => simp
    | cons b m =>
      simp only [List.length_cons, Nat.succ_min_succ, List.take_succ_cons,
        List.zip_cons_cons]
      rw [← ih m]

/-- **C9.** In chain mode, one record yields exactly
`min (len note) (len chain)` Items and `FROM_SOURCE` rows, and the whole
per-record output is unchanged when both arrays are truncated to that
length: the trailing entries of the longer array contribute no Item,
Mention, or Chain edge. -/
theorem c9_chain_zip_min (corpus_id ref : String) (citation : PyVal)
    (relation_definitions : List (String × String)) (notes chain_list : List PyVal) :
    (chainModeRows corpus_id ref citation relation_definitions notes chain_list).items.length
        = min notes.length chain_list.length
    ∧ (chainModeRows corpus_id ref citation relation_definitions notes chain_list).from_source.length
        = min notes.length chain_list.length
    ∧ chainModeRows corpus_id ref citation relation_definitions notes chain_list
        = chainModeRows corpus_id ref citation relation_definitions
            (notes.take (min notes.length chain_list.length))
            (chain_list.take (min notes.length chain_list.length)) := by
  have hlen : (notes.zip chain_list).length = min notes.length chain_list.length := by
    rw [List.length_zip]
  have hloop := chainPairsLoop_lengths corpus_id ref citation relation_definitions
    (notes.zip chain_list) 1
  refine ⟨hloop.1.trans hlen, hloop.2.trans hlen, ?_⟩
  unfold chainModeRows
  rw [← zip_eq_zip_take]

/-! ### C2: derivation of the concept label -/

/-- **C2, counterexample.** A template whose only chain field is named
`"cadeia"` produces `concept_label = "Cadeia"`: the sanitizer is applied
to the capitalized field name, not to the field name itself, so the
payload's label differs from `sanitize_cypher_label "cadeia"`. -/
theorem c2_counterexample :
    (compile_project_payload [("cadeia", { scope := "ITEM", ftype := "CHAIN" })] {} 0).concept_label
        = "Cadeia"
    ∧ sanitize_cypher_label "cadeia" = "cadeia"
    ∧ ("Cadeia" : String) ≠ "cadeia" :=
  ⟨by decide, by decide, by decide⟩

/-- **C2, amended.** For every built payload, `concept_label` equals the
sanitizer applied to the capitalized first chain field name if any chain
field exists, else the sanitizer applied to the capitalized first code
field name if any code field exists, else the literal `"Concept"`. -/
theorem c2_concept_label_derivation (json_data : Snapshot)
    (scalar_fields graph_fields : List String)
    (chain_fields : List ChainFieldSpec) (code_fields : List CodeFieldSpec)
    (value_maps : List (String × List (List (String × PyVal))))
    (source_fields : List String) (created : Int) :
    (_build_graph_payload json_data scalar_fields graph_fields chain_fields code_fields
        value_maps source_fields created).concept_label
      = match chain_fields with
        | cf :: _ => sanitize_cypher_label (pyCapitalize cf.field_name)
        | [] =>
          match code_fields with
          | cf :: _ => sanitize_cypher_label (pyCapitalize cf.field_name)
          | [] => "Concept" := rfl

/-! ### C1: identifier validation before splicing -/

theorem charOfNat_toNat_small : ∀ m : Fin 128, (Char.ofNat m.val).toNat = m.val := by
  decide

theorem pyCharUpper_toNat_lt_128 {c : Char} (h : c.toNat < 128) :
    (pyCharUpper c).toNat < 128 := by
  unfold pyCharUpper
  by_cases hc : 97 ≤ c.toNat ∧ c.toNat ≤ 122
  · rw [if_pos hc]
    have hm := charOfNat_toNat_small ⟨c.toNat - 32, by omega⟩
    simp only [] at hm
    rw [hm]
    omega
  · rw [if_neg hc]
    exact h

theorem pyCharLower_toNat_lt_128 {c : Char} (h : c.toNat < 128) :
    (pyCharLower c).toNat < 128 := by
  unfold pyCharLower
  by_cases hc : 65 ≤ c.toNat ∧ c.toNat ≤ 90
  · rw [if_pos hc]
    have hm := charOfNat_toNat_small ⟨c.toNat + 32, by omega⟩
    simp only [] at hm
    rw [hm]
    omega
  · rw [if_neg hc]
    exact h

theorem isAscii_pyCapitalize {s : String} (h : isAsciiString s = true) :
    isAsciiString (pyCapitalize s) = true := by
  have hall : ∀ c ∈ s.data, c.toNat < 128 := by
    simpa [isAsciiString, List.all_eq_true] using h
  unfold pyCapitalize
  cases hd : s.data with
  | nil => decide
  | cons c cs =>
    have hc : c.toNat < 128 := hall c (hd ▸ List.mem_cons_self c cs)
    have hcs : ∀ d ∈ cs, d.toNat < 128 := fun d hdm =>
      hall d (hd ▸ List.mem_cons_of_mem c hdm)
    simp only [isAsciiString, List.all_eq_true]
    intro d hdm
    have hdm' : d ∈ pyCharUpper c :: cs.map pyCharLower := hdm
    rcases List.mem_cons.mp hdm' with h1 | h1
    · subst h1
      simpa using pyCharUpper_toNat_lt_128 hc
    · rcases List.mem_map.mp h1 with ⟨e, he, rfl⟩
      simpa using pyCharLower_toNat_lt_128 (hcs e he)

set_option maxRecDepth 8000 in
/-- **C1, counterexample.** A template whose chain field is named `"xé"`
(Python's `isalnum` accepts `é`) yields `concept_label = "Xé"`, which the
validator rejects; `_sync_concepts` and `_sync_mentions` nevertheless
splice it into their query strings unvalidated, so the issued queries
contain a concept label the validator never accepted. -/
theorem c1_counterexample :
    (compile_project_payload [("xé", { scope := "ITEM", ftype := "CHAIN" })]
        { corpus := [{ id := "r1", source_ref := "@S1",
                       data := [("text", .str "quote"),
                                ("note", .list [.str "n1"]),
                                ("chain", .list [.dict [("nodes",
                                  .list [.str "A", .str "rel", .str "B"])]])] }] } 0).concept_label
        = "Xé"
    ∧ validate_cypher_label "Xé" = false
    ∧ _sync_mentions_queries
        (compile_project_payload [("xé", { scope := "ITEM", ftype := "CHAIN" })]
          { corpus := [{ id := "r1", source_ref := "@S1",
                         data := [("text", .str "quote"),
                                  ("note", .list [.str "n1"]),
                                  ("chain", .list [.dict [("nodes",
                                    .list [.str "A", .str "rel", .str "B"])]])] }] } 0).mentions
        "Xé"
      = [syncMentionsQueryText "Xé"]
    ∧ _sync_concepts_queries
        (compile_project_payload [("xé", { scope := "ITEM", ftype := "CHAIN" })]
          { corpus := [{ id := "r1", source_ref := "@S1",
                         data := [("text", .str "quote"),
                                  ("note", .list [.str "n1"]),
                                  ("chain", .list [.dict [("nodes",
                                    .list [.str "A", .str "rel", .str "B"])]])] }] } 0).chains
        []
        "Xé"
      = [syncChainStubsQueryText "Xé", syncRelatesToQueryText "Xé"] :=
  ⟨by decide, by decide, by decide, by decide⟩

/-- **C1, amended.** Taxonomy labels and relation types are validated
immediately before being spliced by `_sync_taxonomies` (failing pairs are
skipped); `_sync_concepts` and `_sync_mentions` splice the payload's
`concept_label` without re-validation, and that label is one the
validator accepts whenever the chain/code field names it can derive from
are ASCII (the default `"Concept"` always validates). -/
theorem c1_labels_validated :
    (∀ (graph_fields : List String) (p : String × String),
        p ∈ _sync_taxonomies_spliced graph_fields →
        validate_cypher_label p.1 = true ∧ validate_cypher_label p.2 = true)
    ∧ (∀ (json_data : Snapshot) (scalar_fields graph_fields : List String)
        (chain_fields : List ChainFieldSpec) (code_fields : List CodeFieldSpec)
        (value_maps : List (String × List (List (String × PyVal))))
        (source_fields : List String) (created : Int),
        (∀ cf ∈ chain_fields, isAsciiString cf.field_name = true) →
        (∀ cf ∈ code_fields, isAsciiString cf.field_name = true) →
        validate_cypher_label
          (_build_graph_payload json_data scalar_fields graph_fields chain_fields
            code_fields value_maps source_fields created).concept_label = true) := by
  constructor
  · intro gfs p hp
    unfold _sync_taxonomies_spliced at hp
    rw [List.mem_filterMap] at hp
    obtain ⟨f, _, hf⟩ := hp
    have hf' : (if (validate_cypher_label (sanitize_cypher_label (pyCapitalize f))
          && validate_cypher_label (_get_taxonomy_relation f)) = true then
        some (sanitize_cypher_label (pyCapitalize f), _get_taxonomy_relation f)
      else Option.none) = some p := hf
    by_cases hv : (validate_cypher_label (sanitize_cypher_label (pyCapitalize f))
        && validate_cypher_label (_get_taxonomy_relation f)) = true
    · rw [if_pos hv] at hf'
      have hp2 : (sanitize_cypher_label (pyCapitalize f), _get_taxonomy_relation f) = p :=
        Option.some.inj hf'
      rw [Bool.and_eq_true] at hv
      rw [← hp2]
      exact hv
    · rw [if_neg hv] at hf'
      exact absurd hf' (by simp)
  · intro json_data scalar_fields graph_fields chain_fields code_fields value_maps
      source_fields created hchain hcode
    cases chain_fields with
    | cons cf t =>
      show validate_cypher_label (sanitize_cypher_label (pyCapitalize cf.field_name)) = true
      exact validate_sanitize_of_ascii
        (isAscii_pyCapitalize (hchain cf (List.mem_cons_self cf t)))
    | nil =>
      cases code_fields with
      | cons cf t =>
        show validate_cypher_label (sanitize_cypher_label (pyCapitalize cf.field_name)) = true
        exact validate_sanitize_of_ascii
          (isAscii_pyCapitalize (hcode cf (List.mem_cons_self cf t)))
      | nil =>
        show validate_cypher_label "Concept" = true
        decide

/-- Witness for C1 at a concrete ASCII chain field. -/
theorem c1_labels_validated_witness :
    (∀ cf ∈ [({ field_name := "cadeia", relations := [] } : ChainFieldSpec)],
        isAsciiString cf.field_name = true)
    ∧ validate_cypher_label
        (_build_graph_payload {} [] [] [{ field_name := "cadeia", relations := [] }]
          [] [] [] 0).concept_label = true :=
  ⟨by decide,
   c1_labels_validated.2 {} [] [] [{ field_name := "cadeia", relations := [] }] [] [] [] 0
     (by decide) (by decide)⟩

/-! ### C3: taxonomy value resolution in concept extraction -/

theorem snd_eq_of_mem_zip_map {α β : Type} (f : α → β) :
    ∀ (l : List α) (p : α × β), p ∈ l.zip (l.map f) → p.2 = f p.1 := by
  intro l
  induction l with
  | nil => intro p hp; simp at hp
  | cons a t ih =>
    intro p hp
    rw [List.map_cons, List.zip_cons_cons] at hp
    rcases List.mem_cons.mp hp with h1 | h1
    · subst h1; rfl
    · exact ih p h1

theorem relations_foldl_lookup (fields : List (String × PyVal))
    (value_maps : List (String × List (List (String × PyVal))))
    {gf : String} {raw : PyVal} (hraw : fields.lookup gf = some raw) :
    ∀ (gfs : List String) (rs : List (String × List PyVal)),
      (gfs.foldl (fun rs2 gf2 =>
          match fields.lookup gf2 with
          | some raw2 => setKey rs2 gf2 (resolveRelationRaw value_maps gf2 raw2)
          | Option.none => rs2) rs).lookup gf
        = if gf ∈ gfs then some (resolveRelationRaw value_maps gf raw)
          else rs.lookup gf := by
  intro gfs
  induction gfs with
  | nil => intro rs; simp
  | cons f t ih =>
    intro rs
    rw [List.foldl_cons, ih]
    by_cases hf : f = gf
    · subst hf
      rw [if_pos (List.mem_cons_self f t)]
      by_cases ht : f ∈ t
      · rw [if_pos ht]
      · rw [if_neg ht]
        simp only [hraw]
        exact lookup_setKey_self rs f (resolveRelationRaw value_maps f raw)
    · by_cases ht : gf ∈ t
      · rw [if_pos ht, if_pos (List.mem_cons_of_mem f ht)]
      · have hnotc : gf ∉ f :: t := by
          rw [List.mem_cons]
          rintro (he | he)
          · exact hf he.symm
          · exact ht he
        rw [if_neg ht, if_neg hnotc]
        cases hlk : fields.lookup f with
        | none => simp only [hlk]
        | some raw2 =>
          simp only [hlk]
          exact lookup_setKey_ne rs f gf (resolveRelationRaw value_maps f raw2)
            (fun he => hf he.symm)

/-- **C3, amended.** For every ontology entry and every taxonomy field
present on it, the extracted concept's `relations` entry is exactly the
resolution of `_extract_concepts`: with a value map every element goes
through `_index_to_label` (exact index match; an unmatched integer and
any non-integer are stringified) and a scalar is wrapped; with no value
map the raw value is used directly without stringification, a scalar
wrapped into a one-element list.  The result is always a list. -/
theorem c3_relations_resolution (ontology : List (String × OntEntry))
    (scalar_fields graph_fields : List String)
    (value_maps : List (String × List (List (String × PyVal)))) (created : Int)
    (p : (String × OntEntry) × ConceptRow)
    (hp : p ∈ ontology.zip (_extract_concepts ontology scalar_fields graph_fields
      value_maps created))
    (gf : String) (hgf : gf ∈ graph_fields) (raw : PyVal)
    (hraw : p.1.2.fields.lookup gf = some raw) :
    p.2.relations.lookup gf = some (resolveRelationRaw value_maps gf raw) := by
  have h2 : p.2 = conceptOfEntry scalar_fields graph_fields value_maps created p.1 :=
    snd_eq_of_mem_zip_map _ ontology p hp
  rw [h2]
  show (graph_fields.foldl (fun rs2 gf2 =>
      match p.1.2.fields.lookup gf2 with
      | some raw2 => setKey rs2 gf2 (resolveRelationRaw value_maps gf2 raw2)
      | Option.none => rs2) []).lookup gf
    = some (resolveRelationRaw value_maps gf raw)
  rw [relations_foldl_lookup p.1.2.fields value_maps hraw graph_fields []]
  rw [if_pos hgf]

/-- **C3, counterexample.** For a taxonomy field with no value map
holding the integer `5`, the resolved relation list is `[5]` — the raw
integer unchanged — and not the stringified `["5"]` the claim states. -/
theorem c3_counterexample :
    (_extract_concepts [("c1", { description := .none, fields := [("f", .int 5)] })]
        [] ["f"] [] 0).map (fun c => c.relations.lookup "f")
      = [some [PyVal.int 5]]
    ∧ [PyVal.int 5] ≠ [PyVal.str "5"] :=
  ⟨rfl, by simp⟩

/-- Ontology and value map for the C3 witness. -/
def c3Ontology : List (String × OntEntry) :=
  [("c1", { description := .none, fields := [("topic", .int 2)] })]

/-- Value map mapping index `2` to label `"Two"`. -/
def c3ValueMaps : List (String × List (List (String × PyVal))) :=
  [("topic", [[("index", .int 2), ("label", .str "Two")]])]

/-- Witness for C3: the mapped field resolves through the value map. -/
theorem c3_relations_resolution_witness :
    (_extract_concepts c3Ontology [] ["topic"] c3ValueMaps 0).map
        (fun c => c.relations.lookup "topic")
      = [some [PyVal.str "Two"]] := by
  have h := c3_relations_resolution c3Ontology [] ["topic"] c3ValueMaps 0
    ((("c1", { description := .none, fields := [("topic", .int 2)] }),
      conceptOfEntry [] ["topic"] c3ValueMaps 0
        ("c1", { description := .none, fields := [("topic", .int 2)] })))
    (List.Mem.head _) "topic" (List.mem_cons_self _ _) (.int 2) rfl
  have h' : (conceptOfEntry [] ["topic"] c3ValueMaps 0
      ("c1", { description := .none, fields := [("topic", .int 2)] })).relations.lookup "topic"
      = some (resolveRelationRaw c3ValueMaps "topic" (.int 2)) := h
  rw [show _extract_concepts c3Ontology [] ["topic"] c3ValueMaps 0
      = [conceptOfEntry [] ["topic"] c3ValueMaps 0
          ("c1", { description := .none, fields := [("topic", .int 2)] })] from rfl,
    List.map_cons, List.map_nil, h']
  rfl

/-! ### C6: source deduplication -/

theorem chainPairRow_sources (corpus_id ref : String) (citation : PyVal)
    (relation_definitions : List (String × String)) (idx : Nat)
    (note chainEntry : PyVal) :
    (chainPairRow corpus_id ref citation relation_definitions idx note chainEntry).sources
      = [] := by
  unfold chainPairRow
  cases asList (pyValGetD chainEntry "nodes") with
  | nil => rfl
  | cons a t =>
    cases t with
    | nil => rfl
    | cons b t2 =>
      cases t2 with
      | nil => rfl
      | cons c t3 => rfl

theorem chainPairsLoop_sources (corpus_id ref : String) (citation : PyVal)
    (relation_definitions : List (String × String)) :
    ∀ (pairs : List (PyVal × PyVal)) (idx : Nat),
      (chainPairsLoop corpus_id ref citation relation_definitions idx pairs).sources = [] := by
  intro pairs
  induction pairs with
  | nil => intro idx; rfl
  | cons p rest ih =>
    intro idx
    obtain ⟨note, ch⟩ := p
    unfold chainPairsLoop CorpusRows.coalesce
    rw [chainPairRow_sources, ih (idx + 1)]
    rfl

theorem codePairsLoop_sources (corpus_id ref : String) (base_text : PyVal)
    (descriptions : List PyVal) :
    ∀ (codes : List PyVal) (idx : Nat),
      (codePairsLoop corpus_id ref base_text descriptions idx codes).sources = [] := by
  intro codes
  induction codes with
  | nil => intro idx; rfl
  | cons code rest ih =>
    intro idx
    unfold codePairsLoop CorpusRows.coalesce
    rw [ih (idx + 1)]
    rfl

theorem codeModeRows_sources (corpus_id ref : String) (data : List (String × PyVal))
    (code_field_names : List String) :
    (codeModeRows corpus_id ref data code_field_names).sources = [] := by
  unfold codeModeRows
  split
  · rfl
  · split
    · rfl
    · exact codePairsLoop_sources corpus_id ref _ _ _ 1

theorem extractRecordRows_sources (rec : CorpusRecord)
    (relation_definitions : List (String × String)) (code_field_names : List String) :
    (extractRecordRows rec relation_definitions code_field_names).sources = [] := by
  unfold extractRecordRows
  by_cases hc : pyTruthy (pyGetD rec.data "chain") = true
  · rw [if_pos hc]
    unfold chainModeRows
    exact chainPairsLoop_sources _ _ _ _ _ 1
  · rw [if_neg hc]
    by_cases hcode : (code_field_names.any (fun cf => pyTruthy (pyGetD rec.data cf))) = true
    · rw [if_pos hcode]
      exact codeModeRows_sources _ _ _ _
    · rw [if_neg hcode]

/-- The records of the corpus whose (lstripped) source reference was not
seen before: exactly the records whose Source entry survives
deduplication, in order. -/
def firstOccurrences : List CorpusRecord → List String → List CorpusRecord
  | [], _ => []
  | r :: rest, seen =>
    if stripAts r.source_ref ∈ seen then firstOccurrences rest seen
    else r :: firstOccurrences rest (seen ++ [stripAts r.source_ref])

theorem extractCorpusFold_sources (bibliography : List (String × List (String × PyVal)))
    (relation_definitions : List (String × String))
    (code_field_names : List String) (source_fields : List String) :
    ∀ (corpus : List CorpusRecord) (seen : List String),
      (extractCorpusFold bibliography relation_definitions code_field_names source_fields
          corpus seen).sources
        = (firstOccurrences corpus seen).map
            (fun r => _build_source_props (stripAts r.source_ref) r bibliography
              source_fields) := by
  intro corpus
  induction corpus with
  | nil => intro seen; rfl
  | cons rec rest ih =>
    intro seen
    unfold extractCorpusFold firstOccurrences
    by_cases hmem : stripAts rec.source_ref ∈ seen
    · have hnn : ¬ stripAts rec.source_ref ∉ seen := by simpa using hmem
      rw [if_neg hnn, if_pos hmem]
      simp [CorpusRows.coalesce, extractRecordRows_sources, ih seen]
    · rw [if_pos hmem, if_neg hmem]
      simp [CorpusRows.coalesce, extractRecordRows_sources,
        ih (seen ++ [stripAts rec.source_ref])]

theorem firstOccurrences_refs_nodup :
    ∀ (corpus : List CorpusRecord) (seen : List String),
      ((firstOccurrences corpus seen).map (fun r => stripAts r.source_ref)).Nodup
      ∧ ∀ r ∈ firstOccurrences corpus seen, stripAts r.source_ref ∉ seen := by
  intro corpus
  induction corpus with
  | nil =>
    intro seen
    refine ⟨List.nodup_nil, ?_⟩
    intro r hr
    simp [firstOccurrences] at hr
  | cons rec rest ih =>
    intro seen
    unfold firstOccurrences
    by_cases hmem : stripAts rec.source_ref ∈ seen
    · rw [if_pos hmem]
      exact ⟨(ih seen).1, fun r hr => (ih seen).2 r hr⟩
    · rw [if_neg hmem]
      have ih' := ih (seen ++ [stripAts rec.source_ref])
      constructor
      · rw [List.map_cons, List.nodup_cons]
        constructor
        · intro hin
          rcases List.mem_map.mp hin with ⟨r, hr, heq⟩
          have := ih'.2 r hr
          rw [heq] at this
          exact this (List.mem_append_right _ (List.mem_singleton.mpr rfl))
        · exact ih'.1
      · intro r hr
        rcases List.mem_cons.mp hr with h1 | h1
        · subst h1; exact hmem
        · intro hin
          exact (ih'.2 r h1) (List.mem_append_left _ hin)

theorem lookup_foldl_of_ne {β : Type} (f : List (String × β) → String → List (String × β))
    (target : String)
    (hstep : ∀ ps key, key ≠ target → (f ps key).lookup target = ps.lookup target) :
    ∀ (keys : List String), target ∉ keys →
      ∀ ps, ((keys.foldl f ps).lookup target) = ps.lookup target := by
  intro keys
  induction keys with
  | nil => intro _ ps; rfl
  | cons k t ih =>
    intro hnot ps
    rw [List.foldl_cons]
    rw [ih (fun hm => hnot (List.mem_cons_of_mem _ hm)) (f ps k)]
    exact hstep ps k (fun he => hnot (he ▸ List.mem_cons_self _ _))

theorem lookup_setVal_ne (x : PyVal) (ps : List (String × PyVal)) (key target : String)
    (h : target ≠ key) :
    (match x with
      | .none => ps
      | v => setKey ps key v).lookup target = ps.lookup target := by
  cases x with
  | none => rfl
  | int n => exact lookup_setKey_ne ps key target _ h
  | str s => exact lookup_setKey_ne ps key target _ h
  | list l => exact lookup_setKey_ne ps key target _ h
  | dict d => exact lookup_setKey_ne ps key target _ h

theorem bibtex_lookup_source_props (source_ref : String) (item : CorpusRecord)
    (bibliography : List (String × List (String × PyVal))) (source_fields : List String)
    (h : "bibtex" ∉ source_fields) :
    (_build_source_props source_ref item bibliography source_fields).lookup "bibtex"
      = some (.str source_ref) := by
  simp only [_build_source_props]
  refine (lookup_foldl_of_ne _ "bibtex" ?_ source_fields h _).trans ?_
  · intro ps key hk
    show (match item.source_metadata.lookup key with
      | some v =>
        match v with
        | .none => ps
        | _ => setKey ps key v
      | Option.none => ps).lookup "bibtex" = ps.lookup "bibtex"
    cases item.source_metadata.lookup key with
    | none => rfl
    | some v =>
      cases v with
      | none => rfl
      | int n => exact lookup_setKey_ne ps key "bibtex" _ (Ne.symm hk)
      | str s => exact lookup_setKey_ne ps key "bibtex" _ (Ne.symm hk)
      | list l => exact lookup_setKey_ne ps key "bibtex" _ (Ne.symm hk)
      | dict d => exact lookup_setKey_ne ps key "bibtex" _ (Ne.symm hk)
  · refine (lookup_foldl_of_ne _ "bibtex" ?_
      ["title", "author", "year", "doi", "journal", "abstract"] (by decide) _).trans ?_
    · intro ps key hk
      show (match (if pyTruthy (pyGetD item.source_metadata key) then
            pyGetD item.source_metadata key
          else pyGetD ((bibliography.lookup source_ref).getD []) key) with
        | .none => ps
        | v => setKey ps key v).lookup "bibtex" = ps.lookup "bibtex"
      exact lookup_setVal_ne _ ps key "bibtex" (Ne.symm hk)
    · rfl

/-- **C6, amended.** Provided the template declares no SOURCE-scope field
named `"bibtex"` (such a dynamic field would overwrite the key), the
`sources` list is exactly one entry per distinct lstripped source
reference, built from the first record bearing it, and its `bibtex` keys
are pairwise distinct. -/
theorem c6_source_dedup (corpus : List CorpusRecord)
    (bibliography : List (String × List (String × PyVal)))
    (relation_definitions : List (String × String))
    (code_field_names : List String) (source_fields : List String)
    (h : "bibtex" ∉ source_fields) :
    (_extract_corpus_data corpus bibliography relation_definitions code_field_names
        source_fields).sources
      = (firstOccurrences corpus []).map
          (fun r => _build_source_props (stripAts r.source_ref) r bibliography source_fields)
    ∧ ((_extract_corpus_data corpus bibliography relation_definitions code_field_names
        source_fields).sources.map (fun s => s.lookup "bibtex")).Nodup := by
  have hs := extractCorpusFold_sources bibliography relation_definitions code_field_names
    source_fields corpus []
  refine ⟨hs, ?_⟩
  unfold _extract_corpus_data
  rw [hs, List.map_map]
  have hcong : (firstOccurrences corpus []).map
        ((fun s : List (String × PyVal) => s.lookup "bibtex")
          ∘ (fun r => _build_source_props (stripAts r.source_ref) r bibliography source_fields))
      = (firstOccurrences corpus []).map
          (fun r => some (PyVal.str (stripAts r.source_ref))) := by
    apply List.map_congr_left
    intro r _
    exact bibtex_lookup_source_props (stripAts r.source_ref) r bibliography source_fields h
  rw [hcong]
  have hinj : Function.Injective (fun x : String => some (PyVal.str x)) := by
    intro a b hab
    injection hab with h1
    injection h1
  have hcomp : (firstOccurrences corpus []).map
        (fun r => some (PyVal.str (stripAts r.source_ref)))
      = ((firstOccurrences corpus []).map (fun r => stripAts r.source_ref)).map
          (fun x => some (PyVal.str x)) := by
    rw [List.map_map]
    rfl
  rw [hcomp]
  exact ((firstOccurrences_refs_nodup corpus []).1).map hinj

/-- Two corpus records sharing `source_ref = "X"`. -/
def c6Corpus : List CorpusRecord :=
  [{ id := "r1", source_ref := "X", data := [] },
   { id := "r2", source_ref := "X", data := [] }]

/-- Witness for C6: the shared reference yields exactly one Source entry
with `bibtex = "X"`. -/
theorem c6_source_dedup_witness :
    (("bibtex" : String) ∉ ([] : List String))
    ∧ ((_extract_corpus_data c6Corpus [] [] [] []).sources
        = (firstOccurrences c6Corpus []).map
            (fun r => _build_source_props (stripAts r.source_ref) r [] [])
      ∧ ((_extract_corpus_data c6Corpus [] [] [] []).sources.map
          (fun s => s.lookup "bibtex")).Nodup)
    ∧ (_extract_corpus_data c6Corpus [] [] [] []).sources.map (fun s => s.lookup "bibtex")
        = [some (PyVal.str "X")] :=
  ⟨by simp, c6_source_dedup c6Corpus [] [] [] [] (by simp), rfl⟩

/-- Two records with distinct references whose SOURCE-scope metadata
field `bibtex` holds the same value `"Z"`. -/
def c6BadCorpus : List CorpusRecord :=
  [{ id := "r1", source_ref := "A", data := [], source_metadata := [("bibtex", .str "Z")] },
   { id := "r2", source_ref := "B", data := [], source_metadata := [("bibtex", .str "Z")] }]

/-- **C6, counterexample.** With a declared SOURCE-scope field named
`"bibtex"`, the dynamic property overwrites the dedup key: two records
with distinct references produce two Source entries with the same
`bibtex`, so the keys are not pairwise distinct. -/
theorem c6_counterexample :
    (_extract_corpus_data c6BadCorpus [] [] [] ["bibtex"]).sources.map
        (fun s => s.lookup "bibtex")
      = [some (PyVal.str "Z"), some (PyVal.str "Z")]
    ∧ ¬ ((_extract_corpus_data c6BadCorpus [] [] [] ["bibtex"]).sources.map
        (fun s => s.lookup "bibtex")).Nodup := by
  refine ⟨rfl, ?_⟩
  rw [show (_extract_corpus_data c6BadCorpus [] [] [] ["bibtex"]).sources.map
      (fun s => s.lookup "bibtex") = [some (PyVal.str "Z"), some (PyVal.str "Z")] from rfl]
  simp
